import Mathlib

/-!
Shallow embedding of `deepchem/feat/graph_data.py`: the `GraphData` class
(construction-time validation and derived attributes) and the `BatchGraphData`
class (batching a sequence of graphs into one disjoint-union graph).

Numpy arrays are modelled by value: a 2-D array is a column count together
with a list of rows (the column count is kept separately so that zero-row
arrays keep their shape, as numpy arrays do).  Entry values are integers;
the claims under study depend only on concatenation and on integer edge
indices, never on floating-point arithmetic.  Python exceptions are
modelled with an error type and `Except`.
-/

/-- Python exceptions raised by the embedded code. -/
inductive PyErr where
  | valueError (msg : String)
  | attributeError (msg : String)
  deriving DecidableEq, Repr

/-- A 2-D numpy array of numbers: a column count plus a list of rows.
A well-formed value has every row of length `ncols` (`Mat.rect`). -/
structure Mat where
  ncols : Nat
  rows : List (List Int)
  deriving DecidableEq, Repr

/-- Row count, i.e. `shape[0]`. -/
def Mat.nrows (m : Mat) : Nat := m.rows.length

/-- Well-formedness: every row has exactly `ncols` entries (numpy arrays
cannot be ragged). -/
def Mat.rect (m : Mat) : Bool := m.rows.all (fun r => r.length = m.ncols)

/-- All entries of the array, row-major. -/
def Mat.entries (m : Mat) : List Int := m.rows.flatten

/-- Elementwise addition of a constant, `m + c` in numpy. -/
def Mat.addConst (m : Mat) (c : Int) : Mat :=
  ⟨m.ncols, m.rows.map (fun r => r.map (fun x => x + c))⟩

/-- An array of rank 1 or 2, as `graph_features` may be either. -/
inductive Arr where
  | d1 (v : List Int)
  | d2 (m : Mat)
  deriving DecidableEq, Repr

/-- Rank promotion performed by `np.vstack` (`np.atleast_2d`): a length-k
vector becomes a 1 x k matrix, a matrix is unchanged. -/
def Arr.toMat : Arr → Mat
  | .d1 v => ⟨v.length, [v]⟩
  | .d2 m => m

/-- The numpy error message raised by concatenation of an empty list. -/
def needOneArrayMsg : String := "need at least one array to concatenate"

/-- Model of `np.vstack` on 2-D arrays: rows are concatenated in order.
Numpy raises `ValueError` on an empty list and on mismatched column counts. -/
def vstack (ms : List Mat) : Except PyErr Mat :=
  match ms with
  | [] => .error (.valueError needOneArrayMsg)
  | m :: rest =>
    if rest.all (fun x => x.ncols = m.ncols) then
      .ok ⟨m.ncols, m.rows ++ (rest.map Mat.rows).flatten⟩
    else
      .error (.valueError "all the input array dimensions must match")

/-- Binary horizontal concatenation of two 2-D arrays with equal row counts. -/
def hstack2 (a b : Mat) : Mat :=
  ⟨a.ncols + b.ncols, List.zipWith (fun r s => r ++ s) a.rows b.rows⟩

/-- Model of `np.hstack` on 2-D arrays: columns are concatenated in order.
Numpy raises `ValueError` on an empty list and on mismatched row counts. -/
def hstack (ms : List Mat) : Except PyErr Mat :=
  match ms with
  | [] => .error (.valueError needOneArrayMsg)
  | m :: rest =>
    if rest.all (fun x => x.nrows = m.nrows) then
      .ok (rest.foldl hstack2 m)
    else
      .error (.valueError "all the input array dimensions must match")

/-- Model of `np.vstack` over a Python list whose entries may be `None`
(as happens in `BatchGraphData.__init__` when the graphs disagree on
feature presence): stacking a `None` with numeric feature rows fails. -/
def vstackOpt (os : List (Option Mat)) : Except PyErr Mat :=
  match os.mapM id with
  | some ms => vstack ms
  | none => .error (.valueError "could not stack a None entry")

/-- Model of `np.vstack` over a list of possibly-`None` rank-1-or-2 arrays,
as used for `graph_features`; the result is always 2-D. -/
def vstackOptArr (os : List (Option Arr)) : Except PyErr Arr :=
  match os.mapM id with
  | some as => (vstack (as.map Arr.toMat)).map Arr.d2
  | none => .error (.valueError "could not stack a None entry")

/-- The edge-feature branch of `BatchGraphData.__init__`: when the first
graph has edge features they are all stacked, otherwise the batched edge
features are `None`. -/
def stackEdgeFeatures (first : Option Mat) (os : List (Option Mat)) :
    Except PyErr (Option Mat) :=
  match first with
  | some _ => Except.map some (vstackOpt os)
  | none => .ok none

/-- The graph-feature branch of `BatchGraphData.__init__`: when the first
graph has graph features they are all stacked, otherwise the batched graph
features are `None`. -/
def stackGraphFeatures (first : Option Arr) (os : List (Option Arr)) :
    Except PyErr (Option Arr) :=
  match first with
  | some _ => Except.map some (vstackOptArr os)
  | none => .ok none

/-- The fields stored by a constructed `GraphData` object. -/
structure GraphData where
  node_features : Mat
  edge_index : Mat
  edge_features : Option Mat
  graph_features : Option Arr
  deriving DecidableEq, Repr

/-- Derived attribute `num_nodes = node_features.shape[0]`. -/
def GraphData.num_nodes (g : GraphData) : Nat := g.node_features.nrows

/-- Derived attribute `num_node_features = node_features.shape[1]`. -/
def GraphData.num_node_features (g : GraphData) : Nat := g.node_features.ncols

/-- Derived attribute `num_edges = edge_index.shape[1]`. -/
def GraphData.num_edges (g : GraphData) : Nat := g.edge_index.ncols

/-- Derived attribute `num_edge_features = edge_features.shape[1]`,
defined only when `edge_features` is present. -/
def GraphData.num_edge_features (g : GraphData) : Option Nat :=
  g.edge_features.map Mat.ncols

/-- Embedding of `GraphData.__init__`.  The `isinstance` checks of the
source cannot fail here because the embedding is typed, and the dtype of
`edge_index` is integer by construction.  The remaining behaviour, in
source order: reject `edge_index` whose row count is not 2; when
`edge_features` is present, reject a row count differing from the edge
count; then compute the derived attributes.  The source guards the
assignment of `num_edge_features` with `if self.node_features is not None`
(which always holds) and reads `self.edge_features.shape[1]`, so when
`edge_features` is `None` the constructor raises `AttributeError`. -/
def graphDataInit (node_features edge_index : Mat) (edge_features : Option Mat)
    (graph_features : Option Arr) : Except PyErr GraphData :=
  if edge_index.nrows ≠ 2 then
    .error (.valueError "The shape of edge_index is [2, num_edges].")
  else
    match edge_features with
    | some ef =>
      if edge_index.ncols ≠ ef.nrows then
        .error (.valueError "The first dimension of edge_features must be the same as the second dimension of edge_index.")
      else
        .ok ⟨node_features, edge_index, some ef, graph_features⟩
    | none =>
      .error (.attributeError "NoneType object has no attribute shape")

/-- The fields stored by a constructed `BatchGraphData` object: the
inherited `GraphData` fields plus the node-to-graph index vector. -/
structure BatchGraphData where
  data : GraphData
  graph_index : List Nat
  deriving DecidableEq, Repr

/-- Embedding of the `graph_index` construction loop:
`for i, num_nodes in enumerate(num_nodes_list): graph_index.extend([i] * num_nodes)`. -/
def graphIndexList (num_nodes_list : List Nat) : List Nat :=
  (num_nodes_list.enum.map (fun p => List.replicate p.2 p.1)).flatten

/-- Embedding of `BatchGraphData.__init__`, in source order: stack the
node features; stack edge features and graph features when the first
graph has them; offset each edge_index by the element of
`[0] + num_nodes_list[:-1]` that `zip` pairs it with and stack the
results; build `graph_index`; finally run `GraphData.__init__` on the
combined arrays.  An empty input fails at the very first `np.vstack`. -/
def batchGraphDataInit (graphs : List GraphData) : Except PyErr BatchGraphData :=
  match graphs with
  | [] => .error (.valueError needOneArrayMsg)
  | g0 :: _ => do
    let batch_node_features ← vstack (graphs.map GraphData.node_features)
    let batch_edge_features ←
      stackEdgeFeatures g0.edge_features (graphs.map GraphData.edge_features)
    let batch_graph_features ←
      stackGraphFeatures g0.graph_features (graphs.map GraphData.graph_features)
    let num_nodes_list := graphs.map GraphData.num_nodes
    let batch_edge_index ←
      hstack (List.zipWith
        (fun prev_num_node g => g.edge_index.addConst (Int.ofNat prev_num_node))
        (0 :: num_nodes_list.dropLast) graphs)
    let gd ← graphDataInit batch_node_features batch_edge_index
      batch_edge_features batch_graph_features
    pure ⟨gd, graphIndexList num_nodes_list⟩

/-- The block-tag list built from node counts when the graph numbering
starts at k; `graphIndexList ns` is `giFrom 0 ns`. -/
def giFrom (k : Nat) (ns : List Nat) : List Nat :=
  ((List.enumFrom k ns).map (fun p => List.replicate p.2 p.1)).flatten

/-- The edge-index range invariant stated by the spec: every entry of
`edge_index` lies in the interval `[0, num_nodes)`. -/
def edgeIndexInRange (g : GraphData) : Bool :=
  g.edge_index.entries.all (fun x => decide (0 ≤ x) && decide (x < (g.num_nodes : Int)))

/-- Whether a computation raised a `ValueError`. -/
def raisesValueError {α : Type} : Except PyErr α → Bool
  | .error (.valueError _) => true
  | _ => false

/-- Modelled from the spec: the per-graph node-count offsets required by the
specification of batching, where the offset of graph i is the sum of the node
counts of graphs 0..i-1 (offset 0 for graph 0). -/
def specOffsets (ns : List Nat) : List Nat :=
  (List.range ns.length).map (fun i => (ns.take i).sum)

/-- Inversion of a successful `Except` bind. -/
theorem except_bind_ok {ε α β : Type} {x : Except ε α} {f : α → Except ε β} {b : β} :
    x >>= f = Except.ok b ↔ ∃ a, x = Except.ok a ∧ f a = Except.ok b := by
  cases x <;> simp [Bind.bind, Except.bind]

/-- Adding the constant 0 to an array changes nothing. -/
theorem addConst_zero (m : Mat) : m.addConst 0 = m := by
  cases m with
  | mk c rs => simp [Mat.addConst]

/-- A successful `vstack` has as many rows as its inputs together. -/
theorem vstack_ok_nrows {ms : List Mat} {r : Mat} (h : vstack ms = .ok r) :
    r.nrows = (ms.map Mat.nrows).sum := by
  cases ms with
  | nil => simp [vstack] at h
  | cons m rest =>
    rw [vstack] at h
    split at h
    · cases h
      show (m.rows ++ (rest.map Mat.rows).flatten).length = _
      simp [Mat.nrows, Function.comp]
      rfl
    · cases h

/-- Column count of an `hstack` fold: the column counts add up. -/
theorem foldl_hstack2_ncols (rest : List Mat) (m : Mat) :
    (rest.foldl hstack2 m).ncols = m.ncols + (rest.map Mat.ncols).sum := by
  induction rest generalizing m with
  | nil => simp
  | cons x xs ih =>
    rw [List.foldl_cons, ih]
    simp [hstack2]
    omega

/-- A successful `hstack` has as many columns as its inputs together. -/
theorem hstack_ok_ncols {ms : List Mat} {r : Mat} (h : hstack ms = .ok r) :
    r.ncols = (ms.map Mat.ncols).sum := by
  cases ms with
  | nil => simp [hstack] at h
  | cons m rest =>
    rw [hstack] at h
    split at h
    · cases h
      rw [foldl_hstack2_ncols]
      simp
    · cases h

/-- Offsetting the edge indices does not change their column counts. -/
theorem zipWith_addConst_ncols (offs : List Nat) (gs : List GraphData)
    (hlen : gs.length ≤ offs.length) :
    (List.zipWith (fun prev g => g.edge_index.addConst (Int.ofNat prev)) offs gs).map
        Mat.ncols
      = gs.map (fun g => g.edge_index.ncols) := by
  induction gs generalizing offs with
  | nil => simp
  | cons g gs ih =>
    cases offs with
    | nil => simp at hlen
    | cons o os =>
      simp only [List.zipWith_cons_cons, List.map_cons]
      refine congrArg _ (ih os ?_)
      simpa using hlen

/-- Inversion of `GraphData.__init__`: a successful construction means the
shape checks passed, `edge_features` was present, and the fields are
stored unchanged. -/
theorem graphDataInit_ok {nf ei : Mat} {ef : Option Mat} {gf : Option Arr} {g : GraphData}
    (h : graphDataInit nf ei ef gf = .ok g) :
    ei.nrows = 2 ∧ ∃ e, ef = some e ∧ ei.ncols = e.nrows ∧ g = ⟨nf, ei, some e, gf⟩ := by
  by_cases h2 : ei.nrows = 2
  · cases ef with
    | none => simp [graphDataInit, h2] at h
    | some e =>
      by_cases hc : ei.ncols = e.nrows
      · simp only [graphDataInit, h2, hc] at h
        simp at h
        exact ⟨h2, e, rfl, hc, h.symm⟩
      · simp [graphDataInit, h2, hc] at h
  · simp [graphDataInit, h2] at h

/-- Shape-valid inputs with `edge_features` present are always accepted by
`GraphData.__init__`, whatever the edge_index entries are. -/
theorem graphDataInit_succeeds (nf ei e : Mat) (gf : Option Arr)
    (h2 : ei.nrows = 2) (he : e.nrows = ei.ncols) :
    graphDataInit nf ei (some e) gf = .ok ⟨nf, ei, some e, gf⟩ := by
  simp [graphDataInit, h2, he]

/-- Inversion of a successful `BatchGraphData.__init__`: the input list is
non-empty, every stacking step succeeded, the final construction ran on the
stacked arrays, and `graph_index` is the block-of-equal-tags list. -/
theorem batch_ok_inv {graphs : List GraphData} {b : BatchGraphData}
    (h : batchGraphDataInit graphs = .ok b) :
    ∃ g0 gs bnf bef bgf bei,
      graphs = g0 :: gs
      ∧ vstack (graphs.map GraphData.node_features) = .ok bnf
      ∧ hstack (List.zipWith
          (fun prev g => g.edge_index.addConst (Int.ofNat prev))
          (0 :: (graphs.map GraphData.num_nodes).dropLast) graphs) = .ok bei
      ∧ graphDataInit bnf bei bef bgf = .ok b.data
      ∧ b.graph_index = graphIndexList (graphs.map GraphData.num_nodes) := by
  cases graphs with
  | nil => simp [batchGraphDataInit] at h
  | cons g0 gs =>
    rw [batchGraphDataInit] at h
    obtain ⟨bnf, hnf, h⟩ := except_bind_ok.mp h
    obtain ⟨bef, hef, h⟩ := except_bind_ok.mp h
    obtain ⟨bgf, hgf, h⟩ := except_bind_ok.mp h
    obtain ⟨bei, hei, h⟩ := except_bind_ok.mp h
    obtain ⟨gd, hgd, h⟩ := except_bind_ok.mp h
    simp only [pure, Except.pure, Except.ok.injEq] at h
    exact ⟨g0, gs, bnf, bef, bgf, bei, rfl, hnf, hei, h ▸ hgd, h ▸ rfl⟩

/-- Batching one graph leaves a single block of zeros as `graph_index`. -/
theorem graphIndexList_singleton (n : Nat) :
    graphIndexList [n] = List.replicate n 0 := by
  simp [graphIndexList, List.enum]

/-- Stacking a single 2-D array returns it unchanged. -/
theorem vstack_singleton (m : Mat) : vstack [m] = .ok m := by
  show Except.ok (⟨m.ncols, m.rows ++ []⟩ : Mat) = Except.ok m
  rw [List.append_nil]

/-- Stacking a single present optional array returns it unchanged. -/
theorem vstackOpt_singleton (m : Mat) : vstackOpt [some m] = .ok m :=
  vstack_singleton m

/-- Stacking a single present rank-1-or-2 array returns its 2-D promotion. -/
theorem vstackOptArr_singleton (a : Arr) :
    vstackOptArr [some a] = .ok (Arr.d2 a.toMat) := by
  show (vstack [a.toMat]).map Arr.d2 = _
  rw [vstack_singleton]
  rfl

/-- Horizontally stacking a single array returns it unchanged. -/
theorem hstack_singleton (m : Mat) : hstack [m] = .ok m := rfl

/-- Horizontally stacking a single array offset by zero returns it unchanged. -/
theorem hstack_addConst_zero (m : Mat) : hstack [m.addConst 0] = .ok m := by
  rw [hstack_singleton, addConst_zero]

/-- C7: whenever batching succeeds, the batched record's `num_nodes` is
the sum of the inputs' node counts, and its `num_edges` is the sum of the
inputs' edge counts. -/
theorem C7_batch_counts (graphs : List GraphData) (b : BatchGraphData)
    (h : batchGraphDataInit graphs = .ok b) :
    b.data.num_nodes = (graphs.map GraphData.num_nodes).sum
    ∧ b.data.num_edges = (graphs.map GraphData.num_edges).sum := by
  obtain ⟨g0, gs, bnf, bef, bgf, bei, hgr, hnf, hei, hgd, _⟩ := batch_ok_inv h
  obtain ⟨h2, e, hef, hce, hb⟩ := graphDataInit_ok hgd
  constructor
  · have hs := vstack_ok_nrows hnf
    rw [hb]
    show bnf.nrows = _
    rw [hs, List.map_map]
    rfl
  · have hs := hstack_ok_ncols hei
    rw [hb]
    show bei.ncols = _
    rw [hs, zipWith_addConst_ncols]
    · rfl
    · subst hgr
      simp

/-- C7 witness: the theorem applied to a concrete one-graph batch with 2
nodes and 2 edges. -/
theorem C7_batch_counts_witness :
    (⟨⟨⟨1, [[5], [6]]⟩, ⟨2, [[0, 1], [1, 0]]⟩, some ⟨1, [[3], [4]]⟩, none⟩, [0, 0]⟩ :
        BatchGraphData).data.num_nodes
      = ([⟨⟨1, [[5], [6]]⟩, ⟨2, [[0, 1], [1, 0]]⟩, some ⟨1, [[3], [4]]⟩, none⟩].map
          GraphData.num_nodes).sum
    ∧ (⟨⟨⟨1, [[5], [6]]⟩, ⟨2, [[0, 1], [1, 0]]⟩, some ⟨1, [[3], [4]]⟩, none⟩, [0, 0]⟩ :
        BatchGraphData).data.num_edges
      = ([⟨⟨1, [[5], [6]]⟩, ⟨2, [[0, 1], [1, 0]]⟩, some ⟨1, [[3], [4]]⟩, none⟩].map
          GraphData.num_edges).sum :=
  C7_batch_counts
    [⟨⟨1, [[5], [6]]⟩, ⟨2, [[0, 1], [1, 0]]⟩, some ⟨1, [[3], [4]]⟩, none⟩]
    ⟨⟨⟨1, [[5], [6]]⟩, ⟨2, [[0, 1], [1, 0]]⟩, some ⟨1, [[3], [4]]⟩, none⟩, [0, 0]⟩ rfl

/-- C5 counterexample: batching a single graph whose `graph_features` is a
1-D vector yields a record whose `graph_features` is the 1 x k row matrix,
not the original vector, so the batched fields do not all equal the
input's fields. -/
theorem C5_counterexample :
    batchGraphDataInit
        [⟨⟨1, [[4]]⟩, ⟨1, [[0], [0]]⟩, some ⟨2, [[7, 8]]⟩, some (Arr.d1 [8, 9])⟩]
      = .ok ⟨⟨⟨1, [[4]]⟩, ⟨1, [[0], [0]]⟩, some ⟨2, [[7, 8]]⟩,
              some (Arr.d2 ⟨2, [[8, 9]]⟩)⟩, [0]⟩
    ∧ some (Arr.d2 ⟨2, [[8, 9]]⟩) ≠ some (Arr.d1 [8, 9]) :=
  ⟨rfl, by decide⟩

/-- C5 amended: batching `[g]` for a graph with `edge_features` present
yields a record with `node_features`, `edge_index` and `edge_features`
equal to g's fields, `graph_features` equal to the 2-D row-stack of g's
`graph_features` (absent when absent, unchanged when already 2-D, the
1 x k row matrix when a k-vector), and `graph_index` a sequence of
`num_nodes` zeros. -/
theorem C5_single_batch (g : GraphData) (e : Mat)
    (hef : g.edge_features = some e)
    (h2 : g.edge_index.nrows = 2)
    (he : e.nrows = g.edge_index.ncols) :
    batchGraphDataInit [g]
      = .ok ⟨⟨g.node_features, g.edge_index, some e,
              g.graph_features.map (fun a => Arr.d2 a.toMat)⟩,
             List.replicate g.num_nodes 0⟩ := by
  obtain ⟨nf, ei, gef, ggf⟩ := g
  simp only at hef h2 he ⊢
  subst hef
  cases ggf with
  | none =>
    simp [batchGraphDataInit, vstack_singleton, vstackOpt_singleton,
      stackEdgeFeatures, stackGraphFeatures, Int.ofNat_zero, hstack_addConst_zero,
      Bind.bind, Except.bind, Except.map,
      graphDataInit_succeeds nf ei e none h2 he,
      graphIndexList_singleton, GraphData.num_nodes, pure, Except.pure]
  | some a =>
    simp [batchGraphDataInit, vstack_singleton, vstackOpt_singleton,
      vstackOptArr_singleton, stackEdgeFeatures, stackGraphFeatures,
      Int.ofNat_zero, hstack_addConst_zero, Bind.bind, Except.bind, Except.map,
      graphDataInit_succeeds nf ei e (some (Arr.d2 a.toMat)) h2 he,
      graphIndexList_singleton, GraphData.num_nodes, pure, Except.pure]

/-- C5 witness: the amended theorem applied to a concrete graph whose
`graph_features` is the 1-D vector [8, 9]. -/
theorem C5_single_batch_witness :
    batchGraphDataInit
        [⟨⟨1, [[4]]⟩, ⟨1, [[0], [0]]⟩, some ⟨2, [[7, 8]]⟩, some (Arr.d1 [8, 9])⟩]
      = .ok ⟨⟨⟨1, [[4]]⟩, ⟨1, [[0], [0]]⟩, some ⟨2, [[7, 8]]⟩,
              (some (Arr.d1 [8, 9])).map (fun a => Arr.d2 a.toMat)⟩,
             List.replicate
               (GraphData.num_nodes
                 ⟨⟨1, [[4]]⟩, ⟨1, [[0], [0]]⟩, some ⟨2, [[7, 8]]⟩, some (Arr.d1 [8, 9])⟩) 0⟩ :=
  C5_single_batch
    ⟨⟨1, [[4]]⟩, ⟨1, [[0], [0]]⟩, some ⟨2, [[7, 8]]⟩, some (Arr.d1 [8, 9])⟩
    ⟨2, [[7, 8]]⟩ rfl (by decide) (by decide)

/-- C6: batching g0 (3 nodes, edge_index [[0,1],[1,2]]) and g1 (2 nodes,
edge_index [[0],[1]]), for any feature matrices of the matching shapes,
yields a batched node count of 5, batched edge_index [[0,1,3],[1,2,4]]
(g1's edges offset by 3) and graph_index [0,0,0,1,1]. -/
theorem C6_two_graph_batch (nf0 nf1 ef0 ef1 : Mat)
    (h0 : nf0.nrows = 3) (h1 : nf1.nrows = 2) (hc : nf1.ncols = nf0.ncols)
    (he0 : ef0.nrows = 2) (he1 : ef1.nrows = 1) (hec : ef1.ncols = ef0.ncols) :
    batchGraphDataInit
        [⟨nf0, ⟨2, [[0, 1], [1, 2]]⟩, some ef0, none⟩,
         ⟨nf1, ⟨1, [[0], [1]]⟩, some ef1, none⟩]
      = .ok ⟨⟨⟨nf0.ncols, nf0.rows ++ nf1.rows⟩, ⟨3, [[0, 1, 3], [1, 2, 4]]⟩,
              some ⟨ef0.ncols, ef0.rows ++ ef1.rows⟩, none⟩, [0, 0, 0, 1, 1]⟩
    ∧ (⟨nf0.ncols, nf0.rows ++ nf1.rows⟩ : Mat).nrows = 5 := by
  have hv : vstack [nf0, nf1] = .ok ⟨nf0.ncols, nf0.rows ++ nf1.rows⟩ := by
    simp [vstack, hc]
  have hvo : vstackOpt [some ef0, some ef1] = .ok ⟨ef0.ncols, ef0.rows ++ ef1.rows⟩ := by
    show vstack [ef0, ef1] = _
    simp [vstack, hec]
  have hnn : ([⟨nf0, ⟨2, [[0, 1], [1, 2]]⟩, some ef0, none⟩,
               ⟨nf1, ⟨1, [[0], [1]]⟩, some ef1, none⟩] : List GraphData).map
      GraphData.num_nodes = [3, 2] := by
    simp [GraphData.num_nodes, h0, h1]
  have hgd : graphDataInit ⟨nf0.ncols, nf0.rows ++ nf1.rows⟩ ⟨3, [[0, 1, 3], [1, 2, 4]]⟩
      (some ⟨ef0.ncols, ef0.rows ++ ef1.rows⟩) none
      = .ok ⟨⟨nf0.ncols, nf0.rows ++ nf1.rows⟩, ⟨3, [[0, 1, 3], [1, 2, 4]]⟩,
             some ⟨ef0.ncols, ef0.rows ++ ef1.rows⟩, none⟩ := by
    refine graphDataInit_succeeds _ _ _ _ rfl ?_
    show (ef0.rows ++ ef1.rows).length = 3
    have hl0 : ef0.rows.length = 2 := he0
    have hl1 : ef1.rows.length = 1 := he1
    simp [hl0, hl1]
  have hl0 : nf0.rows.length = 3 := h0
  have hl1 : nf1.rows.length = 2 := h1
  constructor
  · simp [batchGraphDataInit, hv, hvo, hnn, stackEdgeFeatures, stackGraphFeatures,
      Bind.bind, Except.bind, Except.map, hgd, pure, Except.pure, hstack, hstack2,
      Mat.addConst, graphIndexList, List.enum, List.enumFrom, Mat.nrows,
      GraphData.num_nodes, hl0, hl1, List.replicate]
  · show (nf0.rows ++ nf1.rows).length = 5
    have hl0 : nf0.rows.length = 3 := h0
    have hl1 : nf1.rows.length = 2 := h1
    simp [hl0, hl1]

/-- C6 witness: the theorem applied to concrete feature matrices. -/
theorem C6_two_graph_batch_witness :
    batchGraphDataInit
        [⟨⟨1, [[10], [11], [12]]⟩, ⟨2, [[0, 1], [1, 2]]⟩, some ⟨1, [[20], [21]]⟩, none⟩,
         ⟨⟨1, [[13], [14]]⟩, ⟨1, [[0], [1]]⟩, some ⟨1, [[22]]⟩, none⟩]
      = .ok ⟨⟨⟨1, [[10], [11], [12]] ++ [[13], [14]]⟩, ⟨3, [[0, 1, 3], [1, 2, 4]]⟩,
              some ⟨1, [[20], [21]] ++ [[22]]⟩, none⟩, [0, 0, 0, 1, 1]⟩
    ∧ (⟨1, [[10], [11], [12]] ++ [[13], [14]]⟩ : Mat).nrows = 5 :=
  C6_two_graph_batch ⟨1, [[10], [11], [12]]⟩ ⟨1, [[13], [14]]⟩
    ⟨1, [[20], [21]]⟩ ⟨1, [[22]]⟩ rfl rfl rfl rfl rfl rfl

/-- The source's `graph_index` loop is `giFrom` started at tag 0. -/
theorem graphIndexList_eq_giFrom (ns : List Nat) : graphIndexList ns = giFrom 0 ns := rfl

/-- Unfolding `giFrom` on a cons cell. -/
theorem giFrom_cons (k n : Nat) (ns : List Nat) :
    giFrom k (n :: ns) = List.replicate n k ++ giFrom (k + 1) ns := by
  simp [giFrom, List.enumFrom]

/-- Every tag in `giFrom k ns` lies in `[k, k + ns.length)`. -/
theorem mem_giFrom {x k : Nat} {ns : List Nat} (h : x ∈ giFrom k ns) :
    k ≤ x ∧ x < k + ns.length := by
  induction ns generalizing k with
  | nil => simp [giFrom] at h
  | cons n ns ih =>
    rw [giFrom_cons] at h
    rcases List.mem_append.mp h with h | h
    · have hx := List.eq_of_mem_replicate h
      subst hx
      refine ⟨le_refl _, ?_⟩
      simp only [List.length_cons]
      omega
    · have hx := ih h
      simp only [List.length_cons]
      omega

/-- When every block is non-empty, every tag in `[k, k + ns.length)`
occurs in `giFrom k ns`. -/
theorem mem_giFrom_of {k x : Nat} {ns : List Nat} (hpos : ∀ n ∈ ns, 0 < n)
    (h1 : k ≤ x) (h2 : x < k + ns.length) : x ∈ giFrom k ns := by
  induction ns generalizing k with
  | nil => simp at h2; omega
  | cons n ns ih =>
    rw [giFrom_cons]
    rcases eq_or_lt_of_le h1 with rfl | hlt
    · refine List.mem_append_left _ (List.mem_replicate.mpr ⟨?_, rfl⟩)
      have := hpos n (List.mem_cons_self n ns)
      omega
    · refine List.mem_append_right _ (ih (fun m hm => hpos m (List.mem_cons_of_mem _ hm)) hlt ?_)
      simp only [List.length_cons] at h2
      omega

/-- A constant list is sorted. -/
theorem sorted_replicate (n a : Nat) : List.Sorted (· ≤ ·) (List.replicate n a) := by
  induction n with
  | zero => simp
  | succ m ih =>
    rw [List.replicate_succ, List.sorted_cons]
    exact ⟨fun b hb => le_of_eq (List.eq_of_mem_replicate hb).symm, ih⟩

/-- The block-tag list is non-decreasing. -/
theorem sorted_giFrom (k : Nat) (ns : List Nat) :
    List.Sorted (· ≤ ·) (giFrom k ns) := by
  induction ns generalizing k with
  | nil => simp [giFrom]
  | cons n ns ih =>
    rw [giFrom_cons]
    refine List.pairwise_append.mpr ⟨sorted_replicate n k, ih (k + 1), ?_⟩
    intro a ha b hb
    have h1 := List.eq_of_mem_replicate ha
    have h2 := (mem_giFrom hb).1
    omega

/-- The tag `k + v` occurs in `giFrom k ns` exactly `ns[v]` times (0 when
out of range), i.e. block v has exactly the v-th node count's length. -/
theorem count_giFrom (ns : List Nat) (k v : Nat) :
    (giFrom k ns).count (k + v) = ns.getD v 0 := by
  induction ns generalizing k v with
  | nil => simp [giFrom]
  | cons n ns ih =>
    rw [giFrom_cons, List.count_append]
    cases v with
    | zero =>
      have hrest : (giFrom (k + 1) ns).count (k + 0) = 0 := by
        refine List.count_eq_zero.mpr (fun hmem => ?_)
        have := (mem_giFrom hmem).1
        omega
      rw [hrest]
      simp [List.count_replicate]
    | succ w =>
      have hrep : (List.replicate n k).count (k + (w + 1)) = 0 := by
        refine List.count_eq_zero.mpr (fun hmem => ?_)
        have := List.eq_of_mem_replicate hmem
        omega
      have harith : k + (w + 1) = (k + 1) + w := by omega
      rw [hrep, harith, ih]
      simp

/-- C4 counterexample: batching a 0-node graph together with a 1-node
graph succeeds and yields `graph_index = [1]`, which does not contain the
value 0, so the batched `graph_index` does not contain exactly
`len(graphs) = 2` distinct values `0..1` as the claim states. -/
theorem C4_counterexample :
    batchGraphDataInit
        [⟨⟨1, []⟩, ⟨0, [[], []]⟩, some ⟨1, []⟩, none⟩,
         ⟨⟨1, [[9]]⟩, ⟨0, [[], []]⟩, some ⟨1, []⟩, none⟩]
      = .ok ⟨⟨⟨1, [[9]]⟩, ⟨0, [[], []]⟩, some ⟨1, []⟩, none⟩, [1]⟩
    ∧ ¬ (0 : Nat) ∈ ([1] : List Nat) :=
  ⟨rfl, by decide⟩

/-- C4 amended: for every successful batch, `graph_index` is
non-decreasing and the tag i occurs exactly `num_nodes` of graph i times
(so each graph's nodes form one contiguous block, in input order);
provided additionally that every input graph has at least one node, the
tags present are exactly `0..len(graphs)-1`. -/
theorem C4_graph_index (graphs : List GraphData) (b : BatchGraphData)
    (h : batchGraphDataInit graphs = .ok b) :
    List.Sorted (· ≤ ·) b.graph_index
    ∧ (∀ i, b.graph_index.count i = (graphs.map GraphData.num_nodes).getD i 0)
    ∧ ((∀ g ∈ graphs, 0 < g.num_nodes) →
        ∀ v, v ∈ b.graph_index ↔ v < graphs.length) := by
  obtain ⟨g0, gs, bnf, bef, bgf, bei, hgr, hnf, hei, hgd, hgi⟩ := batch_ok_inv h
  rw [hgi, graphIndexList_eq_giFrom]
  refine ⟨sorted_giFrom 0 _, ?_, ?_⟩
  · intro i
    have hc := count_giFrom (graphs.map GraphData.num_nodes) 0 i
    simpa using hc
  · intro hpos v
    constructor
    · intro hv
      have hm := (mem_giFrom hv).2
      simpa using hm
    · intro hv
      refine mem_giFrom_of ?_ (Nat.zero_le v) ?_
      · intro n hn
        obtain ⟨g, hgmem, rfl⟩ := List.mem_map.mp hn
        exact hpos g hgmem
      · simpa using hv

/-- C4 witness: the amended theorem applied to a two-graph batch with one
node per graph. -/
theorem C4_graph_index_witness :
    List.Sorted (· ≤ ·)
      ((⟨⟨⟨1, [[1], [3]]⟩, ⟨2, [[0, 1], [0, 1]]⟩, some ⟨1, [[2], [4]]⟩, none⟩, [0, 1]⟩ :
        BatchGraphData).graph_index)
    ∧ (∀ i, ((⟨⟨⟨1, [[1], [3]]⟩, ⟨2, [[0, 1], [0, 1]]⟩, some ⟨1, [[2], [4]]⟩, none⟩, [0, 1]⟩ :
          BatchGraphData).graph_index).count i
        = ([⟨⟨1, [[1]]⟩, ⟨1, [[0], [0]]⟩, some ⟨1, [[2]]⟩, none⟩,
            ⟨⟨1, [[3]]⟩, ⟨1, [[0], [0]]⟩, some ⟨1, [[4]]⟩, none⟩].map
            GraphData.num_nodes).getD i 0)
    ∧ ((∀ g ∈ ([⟨⟨1, [[1]]⟩, ⟨1, [[0], [0]]⟩, some ⟨1, [[2]]⟩, none⟩,
                ⟨⟨1, [[3]]⟩, ⟨1, [[0], [0]]⟩, some ⟨1, [[4]]⟩, none⟩] : List GraphData),
          0 < g.num_nodes) →
        ∀ v, v ∈ ((⟨⟨⟨1, [[1], [3]]⟩, ⟨2, [[0, 1], [0, 1]]⟩, some ⟨1, [[2], [4]]⟩, none⟩,
            [0, 1]⟩ : BatchGraphData).graph_index)
          ↔ v < ([⟨⟨1, [[1]]⟩, ⟨1, [[0], [0]]⟩, some ⟨1, [[2]]⟩, none⟩,
                  ⟨⟨1, [[3]]⟩, ⟨1, [[0], [0]]⟩, some ⟨1, [[4]]⟩, none⟩] :
              List GraphData).length) :=
  C4_graph_index
    [⟨⟨1, [[1]]⟩, ⟨1, [[0], [0]]⟩, some ⟨1, [[2]]⟩, none⟩,
     ⟨⟨1, [[3]]⟩, ⟨1, [[0], [0]]⟩, some ⟨1, [[4]]⟩, none⟩]
    ⟨⟨⟨1, [[1], [3]]⟩, ⟨2, [[0, 1], [0, 1]]⟩, some ⟨1, [[2], [4]]⟩, none⟩, [0, 1]⟩
    rfl

/-- C2: the claim says construction with `edge_features` absent succeeds;
the code instead raises `AttributeError`, because the guard on the
`num_edge_features` assignment mistakenly tests `node_features` (never
`None`) and then dereferences `edge_features.shape`.  Evaluation at a
fully valid input with `edge_features = None`. -/
theorem C2_code_eval :
    graphDataInit ⟨1, [[0], [1]]⟩ ⟨1, [[0], [1]]⟩ none none
      = .error (.attributeError "NoneType object has no attribute shape") := rfl

/-- C3 counterexample: a `GraphRecord` whose `edge_index` entries 3 and 4
lie outside `[0, 1)` is accepted by the constructor, refuting the claim
that such records are rejected at construction time. -/
theorem C3_counterexample :
    graphDataInit ⟨1, [[2]]⟩ ⟨1, [[3], [4]]⟩ (some ⟨2, [[8, 8]]⟩) none
      = .ok ⟨⟨1, [[2]]⟩, ⟨1, [[3], [4]]⟩, some ⟨2, [[8, 8]]⟩, none⟩
    ∧ edgeIndexInRange ⟨⟨1, [[2]]⟩, ⟨1, [[3], [4]]⟩, some ⟨2, [[8, 8]]⟩, none⟩ = false :=
  ⟨rfl, by decide⟩

/-- C3 amended: construction validates only shapes, never entry ranges:
whenever `edge_index` has 2 rows and `edge_features` is present with row
count equal to the edge count, construction succeeds and stores the fields
unchanged, regardless of whether the edge_index entries lie in
`[0, num_nodes)`. -/
theorem C3_no_range_check (nf ei e : Mat) (gf : Option Arr)
    (h2 : ei.nrows = 2) (he : e.nrows = ei.ncols) :
    graphDataInit nf ei (some e) gf = .ok ⟨nf, ei, some e, gf⟩ := by
  simp [graphDataInit, h2, he]

/-- C3 witness: the amended theorem applied to a concrete record whose
edge_index entries are out of range. -/
theorem C3_no_range_check_witness :
    graphDataInit ⟨1, [[0]]⟩ ⟨1, [[5], [7]]⟩ (some ⟨1, [[9]]⟩) none
      = .ok ⟨⟨1, [[0]]⟩, ⟨1, [[5], [7]]⟩, some ⟨1, [[9]]⟩, none⟩
    ∧ edgeIndexInRange ⟨⟨1, [[0]]⟩, ⟨1, [[5], [7]]⟩, some ⟨1, [[9]]⟩, none⟩ = false :=
  ⟨C3_no_range_check ⟨1, [[0]]⟩ ⟨1, [[5], [7]]⟩ ⟨1, [[9]]⟩ none (by decide) (by decide),
   by decide⟩

/-- C8: construction fails with a `ValueError` whenever `edge_index` has a
row count other than 2, or `edge_features` is present with a row count
different from the edge count. -/
theorem C8_shape_validation (nf ei : Mat) (ef : Option Mat) (gf : Option Arr)
    (h : ei.nrows ≠ 2 ∨ ∃ e, ef = some e ∧ e.nrows ≠ ei.ncols) :
    raisesValueError (graphDataInit nf ei ef gf) = true := by
  rcases h with h | ⟨e, rfl, hne⟩
  · simp [graphDataInit, h, raisesValueError]
  · by_cases h2 : ei.nrows = 2
    · simp [graphDataInit, h2, Ne.symm hne, raisesValueError]
    · simp [graphDataInit, h2, raisesValueError]

/-- C8 witness: the theorem applied to an `edge_index` with 3 rows, and to
an `edge_features` with 2 rows against a single edge. -/
theorem C8_shape_validation_witness :
    raisesValueError (graphDataInit ⟨1, [[0]]⟩ ⟨0, [[], [], []]⟩ none none) = true
    ∧ raisesValueError
        (graphDataInit ⟨1, [[0]]⟩ ⟨1, [[0], [0]]⟩ (some ⟨1, [[1], [2]]⟩) none) = true :=
  ⟨C8_shape_validation ⟨1, [[0]]⟩ ⟨0, [[], [], []]⟩ none none (Or.inl (by decide)),
   C8_shape_validation ⟨1, [[0]]⟩ ⟨1, [[0], [0]]⟩ (some ⟨1, [[1], [2]]⟩) none
     (Or.inr ⟨⟨1, [[1], [2]]⟩, rfl, by decide⟩)⟩

/-- C10: batching an empty sequence fails at the node-feature
concatenation with a `ValueError`, and no record is returned. -/
theorem C10_empty_batch_fails :
    batchGraphDataInit [] = .error (.valueError needOneArrayMsg) := rfl

/-- C1: the code offsets each graph by the entry of
`[0] + num_nodes_list[:-1]` that `zip` pairs it with, i.e. by the node
count of the immediately preceding graph only, not by the prefix sum the
claim requires.  On three graphs with node counts 1, 1, 2 the third
graph's edge, locally node 0 to node 1 (globally nodes 2 and 3), is
offset by 1 instead of 2, so the batched edge_index is
`[[0,1,1],[0,1,2]]` rather than the required `[[0,1,2],[0,1,3]]`. -/
theorem C1_code_eval :
    (batchGraphDataInit
        [⟨⟨1, [[100]]⟩, ⟨1, [[0], [0]]⟩, some ⟨1, [[5]]⟩, none⟩,
         ⟨⟨1, [[101]]⟩, ⟨1, [[0], [0]]⟩, some ⟨1, [[6]]⟩, none⟩,
         ⟨⟨1, [[102], [103]]⟩, ⟨1, [[0], [1]]⟩, some ⟨1, [[7]]⟩, none⟩]).map
      (fun b => b.data.edge_index)
      = .ok ⟨3, [[0, 1, 1], [0, 1, 2]]⟩
    ∧ specOffsets [1, 1, 2] = [0, 1, 2]
    ∧ (0 :: ([1, 1, 2] : List Nat).dropLast) = [0, 1, 1]
    ∧ (⟨3, [[0, 1, 1], [0, 1, 2]]⟩ : Mat) ≠ ⟨3, [[0, 1, 2], [0, 1, 3]]⟩ :=
  ⟨rfl, rfl, rfl, by decide⟩
